import Mathlib

/-!
Verification development for the System Performance Monitor (`src/Main.py`).

The Python program is shallowly embedded: pure computations become Lean
functions; the CSV file becomes an explicit `Option (List (List String))`
(absent, or present with its rows); the `time.time()` clock becomes an
oracle `ℕ → ℚ` indexed by call number; `psutil` results become explicit
data passed in; exceptions caught by the program become `Option`/explicit
case analysis.  Machine floats are modelled by `ℚ` (all arithmetic in the
program that the claims touch is exact at the claimed inputs).
-/

namespace SPM

/-- `TOP_N_PROCESSES = 5` (Main.py line 10). -/
def TOP_N_PROCESSES : Nat := 5

/-- The 14 system-level column names, in the order `setup_csv` lists them
(Main.py lines 14–19). -/
def systemCols : List String :=
  ["timestamp", "cpu_usage_total", "cpu_usage_per_core", "memory_usage_percent",
   "memory_used", "memory_available", "memory_cached", "disk_usage_percent",
   "disk_io_read_bytes_s", "disk_io_write_bytes_s", "network_io_sent_mbps",
   "network_io_recv_mbps", "system_uptime_seconds", "system_temp_celsius"]

/-- The three ranking categories, in the order both `setup_csv` (line 22) and
`run_spm` (line 147) iterate them. -/
def categories : List String :=
  ["cpu", "memory", "disk_io"]

/-- The eight per-process field suffixes, in the order `setup_csv`
extends the header (lines 24–28) and `run_spm` fills the row (lines 150–157). -/
def procFields : List String :=
  ["pid", "name", "cpu_percent", "mem_rss", "mem_vms",
   "disk_read_bytes", "disk_write_bytes", "execution_time_s"]

/-- Column name `top_<category>_<rank>_<field>`. -/
def colName (c : String) (rank : Nat) (f : String) : String :=
  "top_" ++ c ++ "_" ++ toString rank ++ "_" ++ f

/-- The header row built by `setup_csv` (Main.py lines 14–28): the 14 system
columns, then for each category and each rank `i` in `range(1, N+1)` the
eight `top_<category>_<i>_<field>` columns. -/
def headerCols : List String :=
  systemCols ++
    categories.flatMap (fun c =>
      (List.range TOP_N_PROCESSES).flatMap (fun i =>
        procFields.map (fun f => colName c (i + 1) f)))

/-- The CSV log file: `none` when the file does not exist, otherwise the
list of rows it holds. -/
abbrev LogFile := Option (List (List String))

/-- `setup_csv` (Main.py lines 12–33): the header is computed, and only when
`os.path.exists(LOG_FILE)` is false is the file created (mode `'w'`) with the
single header row; an existing file is left untouched. -/
def setup_csv (fs : LogFile) : LogFile :=
  match fs with
  | some rows => some rows
  | none => some [headerCols]

/-! ## I/O rates (`get_io_rates`, Main.py lines 50–68) -/

/-- A `psutil.disk_io_counters()` snapshot (the fields the program reads). -/
structure DiskCounters where
  read_bytes : ℕ
  write_bytes : ℕ
  deriving DecidableEq

/-- A `psutil.net_io_counters()` snapshot (the fields the program reads). -/
structure NetCounters where
  bytes_sent : ℕ
  bytes_recv : ℕ
  deriving DecidableEq

/-- `get_io_rates` (Main.py lines 50–68), as a pure function of the two
counter snapshots taken either side of the 1-second sleep.  Disk rates are
plain byte differences; network rates are `(delta * 8) / 1_000_000`
(Python true division, modelled exactly in `ℚ`). -/
def get_io_rates (last_disk new_disk : DiskCounters)
    (last_net new_net : NetCounters) : ℤ × ℤ × ℚ × ℚ :=
  let disk_read_s : ℤ := (new_disk.read_bytes : ℤ) - (last_disk.read_bytes : ℤ)
  let disk_write_s : ℤ := (new_disk.write_bytes : ℤ) - (last_disk.write_bytes : ℤ)
  let bytes_sent_s : ℚ := (new_net.bytes_sent : ℚ) - (last_net.bytes_sent : ℚ)
  let bytes_recv_s : ℚ := (new_net.bytes_recv : ℚ) - (last_net.bytes_recv : ℚ)
  let mbps_sent : ℚ := bytes_sent_s * 8 / 1000000
  let mbps_recv : ℚ := bytes_recv_s * 8 / 1000000
  (disk_read_s, disk_write_s, mbps_sent, mbps_recv)

/-! ## Human-size formatting (`get_size`, Main.py lines 41–48)

Python renders with `f"{bytes:.2f}"`: the value rounded to two decimal
places, ties to even.  Over the model field `ℚ` this is `format2` below. -/

/-- Floor of a rational, computed from its reduced fraction (`Int./` is
euclidean division, which floors since the denominator is positive). -/
def qfloor (q : ℚ) : ℤ :=
  q.num / (q.den : ℤ)

/-- Round to the nearest integer, ties to even (the rounding used by
Python float formatting). -/
def roundHalfEven (q : ℚ) : ℤ :=
  let f := qfloor q
  let r := q - (f : ℚ)
  if r < 1 / 2 then f
  else if 1 / 2 < r then f + 1
  else if f % 2 = 0 then f else f + 1

/-- Two-digit zero padding of `m % 100`. -/
def twoDigits (m : ℕ) : String :=
  if m < 10 then "0" ++ toString m else toString m

/-- `f"{q:.2f}"`: fixed-point rendering with exactly two decimals. -/
def format2 (q : ℚ) : String :=
  let n := roundHalfEven (q * 100)
  let a := n.natAbs
  (if n < 0 then "-" else "") ++ toString (a / 100) ++ "." ++ twoDigits (a % 100)

/-- The loop body of `get_size` (Main.py lines 44–48): walk the unit list,
returning as soon as the running value drops below 1024, else divide by
1024 and move to the next unit; when the list is exhausted the value (by
then divided six times) is rendered with unit `"P"`. -/
def getSizeAux : List String → ℚ → String
  | [], b => format2 b ++ "P" ++ "B"
  | u :: us, b => if b < 1024 then format2 b ++ u ++ "B" else getSizeAux us (b / 1024)

/-- `get_size(bytes)` with the default suffix `"B"` (Main.py lines 41–48). -/
def get_size (b : ℚ) : String :=
  getSizeAux ["", "K", "M", "G", "T", "P"] b

/-- The unit written after `k` divisions by 1024 (`k ≤ 5` from inside the
loop, `k = 6` from the post-loop return, which reuses `"P"`). -/
def unitStr : ℕ → String
  | 0 => ""
  | 1 => "K"
  | 2 => "M"
  | 3 => "G"
  | 4 => "T"
  | _ => "P"

/-! ## Process enumeration (`get_all_processes_info`, Main.py lines 70–93) -/

/-- The three `psutil` exceptions caught by the enumeration loop
(Main.py line 91). -/
inductive PErr where
  | noSuchProcess
  | accessDenied
  | zombieProcess
  deriving DecidableEq

/-- The raw `proc.info` mapping for one process, as requested on line 74.
`io_counters` is `none` when `psutil` returns `None` for it (the code
guards this case with `if pinfo['io_counters'] else 0`); its payload is
`(read_bytes, write_bytes)`. -/
structure RawInfo where
  pid : ℕ
  name : String
  cpu_percent : ℚ
  mem_rss : ℕ
  mem_vms : ℕ
  io_counters : Option (ℕ × ℕ)
  create_time : ℚ
  deriving DecidableEq

/-- The per-process record appended to `processes` (Main.py lines 80–90). -/
structure ProcInfo where
  pid : ℕ
  name : String
  cpu_percent : ℚ
  mem_rss : ℕ
  mem_vms : ℕ
  disk_read_bytes : ℕ
  disk_write_bytes : ℕ
  disk_io_total : ℕ
  execution_time_s : ℚ
  deriving DecidableEq

/-- Build one `ProcInfo` dict from `proc.info` at wall-clock time `now`
(Main.py lines 77–90). -/
def mkProcInfo (now : ℚ) (r : RawInfo) : ProcInfo :=
  let rd := match r.io_counters with | some io => io.1 | none => 0
  let wr := match r.io_counters with | some io => io.2 | none => 0
  let disk_io_total := match r.io_counters with | some io => io.1 + io.2 | none => 0
  { pid := r.pid
    name := r.name
    cpu_percent := r.cpu_percent
    mem_rss := r.mem_rss
    mem_vms := r.mem_vms
    disk_read_bytes := rd
    disk_write_bytes := wr
    disk_io_total := disk_io_total
    execution_time_s := now - r.create_time }

/-- The `for proc in psutil.process_iter(...)` loop body (lines 74–92): a
process whose info read raises one of the three caught exceptions is
skipped (`pass`); every other process contributes one record. -/
def collectProcs (now : ℚ) : List (Except PErr RawInfo) → List ProcInfo
  | [] => []
  | .ok r :: rest => mkProcInfo now r :: collectProcs now rest
  | .error _ :: rest => collectProcs now rest

/-- `get_all_processes_info` (Main.py lines 70–93).  `clock n` is the value
returned by the `(n+1)`-th call to `time.time()` inside the function; the
code calls it exactly once (line 73), before the loop, and every record
uses that single reading. -/
def get_all_processes_info (clock : ℕ → ℚ)
    (procs : List (Except PErr RawInfo)) : List ProcInfo :=
  let current_time := clock 0
  collectProcs current_time procs

/-! ## Ranking (`run_spm`, Main.py lines 142–144)

`sorted(all_procs, key=..., reverse=True)[:N]`.  Python `sorted` with
`reverse=True` is the stable sort under the reversed comparison: an
element is placed before exactly those elements whose key is strictly
smaller, and equal-key elements keep their original relative order.
`insertDesc`/`sortDesc` implement exactly this semantics. -/

/-- Insert `x` (an element occurring earlier in the input than everything
in `l`) into the descending-sorted list `l`: `x` goes before the first
element whose key is `≤ key x`. -/
def insertDesc {α β : Type} [LinearOrder β] (key : α → β) (x : α) : List α → List α
  | [] => [x]
  | y :: ys => if key y ≤ key x then x :: y :: ys else y :: insertDesc key x ys

/-- Stable descending sort by `key` (the semantics of
`sorted(l, key=key, reverse=True)`). -/
def sortDesc {α β : Type} [LinearOrder β] (key : α → β) : List α → List α
  | [] => []
  | x :: xs => insertDesc key x (sortDesc key xs)

/-- `sorted(procs, key=key, reverse=True)[:n]`. -/
def rankTop {α β : Type} [LinearOrder β] (key : α → β) (n : ℕ) (procs : List α) : List α :=
  (sortDesc key procs).take n

/-! ## The log row (`run_spm`, Main.py lines 104–160) -/

/-- A CSV cell value: numbers, strings, or the `'N/A'` sentinel. -/
inductive CellVal where
  | na
  | str (s : String)
  | nat (n : ℕ)
  | int (n : ℤ)
  | rat (q : ℚ)
  deriving DecidableEq

/-- The system-level part of one sample (the values written by
`log_data.update({...})`, Main.py lines 127–137). -/
structure Sample where
  timestamp : String
  cpu_usage_total : ℚ
  cpu_usage_per_core : String
  memory_usage_percent : ℚ
  memory_used : ℕ
  memory_available : ℕ
  memory_cached : ℕ
  disk_usage_percent : ℚ
  disk_io_read_bytes_s : ℤ
  disk_io_write_bytes_s : ℤ
  network_io_sent_mbps : ℚ
  network_io_recv_mbps : ℚ
  system_uptime_seconds : ℚ
  system_temp_celsius : Option ℚ

/-- The 14 system key/value insertions of `log_data.update` (lines 127–137),
in dict-literal order. -/
def sysPairs (s : Sample) : List (String × CellVal) :=
  [("timestamp", .str s.timestamp),
   ("cpu_usage_total", .rat s.cpu_usage_total),
   ("cpu_usage_per_core", .str s.cpu_usage_per_core),
   ("memory_usage_percent", .rat s.memory_usage_percent),
   ("memory_used", .nat s.memory_used),
   ("memory_available", .nat s.memory_available),
   ("memory_cached", .nat s.memory_cached),
   ("disk_usage_percent", .rat s.disk_usage_percent),
   ("disk_io_read_bytes_s", .int s.disk_io_read_bytes_s),
   ("disk_io_write_bytes_s", .int s.disk_io_write_bytes_s),
   ("network_io_sent_mbps", .rat s.network_io_sent_mbps),
   ("network_io_recv_mbps", .rat s.network_io_recv_mbps),
   ("system_uptime_seconds", .rat s.system_uptime_seconds),
   ("system_temp_celsius", match s.system_temp_celsius with
                           | some t => .rat t
                           | none => .na)]

/-- One cell of a rank slot: `proc_data.get(field, 'N/A')` where
`proc_data` is `data[i]` when `i < len(data)` and `{}` otherwise
(Main.py lines 149–157).  A present dict has all eight keys, so the
sentinel appears exactly when the slot is unfilled. -/
def slotCell (slot : Option ProcInfo) (f : ProcInfo → CellVal) : CellVal :=
  match slot with
  | some p => f p
  | none => .na

/-- The eight key/value insertions for rank `rank` of category `c`
(Main.py lines 150–157), in source order. -/
def slotPairs (c : String) (rank : ℕ) (slot : Option ProcInfo) : List (String × CellVal) :=
  [(colName c rank "pid", slotCell slot (fun p => .nat p.pid)),
   (colName c rank "name", slotCell slot (fun p => .str p.name)),
   (colName c rank "cpu_percent", slotCell slot (fun p => .rat p.cpu_percent)),
   (colName c rank "mem_rss", slotCell slot (fun p => .nat p.mem_rss)),
   (colName c rank "mem_vms", slotCell slot (fun p => .nat p.mem_vms)),
   (colName c rank "disk_read_bytes", slotCell slot (fun p => .nat p.disk_read_bytes)),
   (colName c rank "disk_write_bytes", slotCell slot (fun p => .nat p.disk_write_bytes)),
   (colName c rank "execution_time_s", slotCell slot (fun p => .rat p.execution_time_s))]

/-- The flattening loop for one category (Main.py lines 148–157):
`for i in range(TOP_N_PROCESSES)` with `proc_data = data[i] if i < len(data) else {}`. -/
def categoryPairs (c : String) (data : List ProcInfo) : List (String × CellVal) :=
  (List.range TOP_N_PROCESSES).flatMap (fun i => slotPairs c (i + 1) data[i]?)

/-- The full `log_data` dict of one cycle in insertion order
(Main.py lines 127–157): the 14 system pairs followed by the flattened
rank slots for `cpu`, `memory`, `disk_io` in that order.  `log_to_csv`
writes the row with `DictWriter(fieldnames=data.keys())`, so this key
order is exactly the column order of the appended row. -/
def mkLogRow (s : Sample) (top_cpu top_mem top_disk : List ProcInfo) :
    List (String × CellVal) :=
  sysPairs s ++ categoryPairs "cpu" top_cpu ++ categoryPairs "memory" top_mem ++
    categoryPairs "disk_io" top_disk

/-! ## Console display of ranked tasks (Main.py lines 168–180)

Each of the three sections prints one line per element of the (already
truncated) top list — `for p in top_cpu: print(...)` — and nothing for
rank slots beyond the list's length. -/

/-- `f"{s:<6}"`-style left-justified padding. -/
def padTo (w : ℕ) (s : String) : String :=
  s ++ String.mk (List.replicate (w - s.length) ' ')

/-- The lines of the "Top CPU Consuming Tasks" section (Main.py 169–170). -/
def displayCpuLines (top : List ProcInfo) : List String :=
  top.map (fun p =>
    "  PID: " ++ padTo 6 (toString p.pid) ++ " | Name: " ++ padTo 20 p.name ++
      " | Usage: " ++ format2 p.cpu_percent ++ "%")

/-- The lines of the "Top Memory Consuming Tasks" section (Main.py 174–175). -/
def displayMemLines (top : List ProcInfo) : List String :=
  top.map (fun p =>
    "  PID: " ++ padTo 6 (toString p.pid) ++ " | Name: " ++ padTo 20 p.name ++
      " | Usage: " ++ get_size (p.mem_rss : ℚ))

/-- The lines of the "Top Disk I/O Tasks" section (Main.py 179–180). -/
def displayDiskLines (top : List ProcInfo) : List String :=
  top.map (fun p =>
    "  PID: " ++ padTo 6 (toString p.pid) ++ " | Name: " ++ padTo 20 p.name ++
      " | I/O: " ++ get_size (p.disk_io_total : ℚ))

/-! ## Temperature lookup (`run_spm`, Main.py lines 115–124)

`psutil.sensors_temperatures()` is modelled as an association list of
sensor groups in dict insertion order; an entry's `current` attribute is
`Option ℚ` (`none` when the attribute/key is missing).  The `try` block's
caught exceptions (`AttributeError`, `IndexError`, `KeyError`) all land in
`cpu_temp = 'N/A'`, modelled as `none`. -/

/-- One sensor reading; `current` is absent for a malformed entry. -/
structure SensorEntry where
  current : Option ℚ
  deriving DecidableEq

/-- Sensor groups as returned by `psutil.sensors_temperatures()`, in dict
insertion order with unique names. -/
abbrev Temps := List (String × List SensorEntry)

/-- The temperature block (Main.py lines 115–124):
`temps.get('coretemp', [{}])[0].get('current', 'N/A')`, then — when that
produced `'N/A'` and `temps` is non-empty — the fallback
`list(temps.values())[0][0].current`; every caught exception yields the
sentinel `none`. -/
def lookupTemp (temps : Temps) : Option ℚ :=
  match (List.lookup "coretemp" temps).getD [⟨none⟩] with
  | [] => none                    -- `[][0]` raises IndexError, caught → 'N/A'
  | e :: _ =>
    match e.current with          -- `.get('current', 'N/A')`
    | some v => some v            -- numeric, the `== 'N/A'` test fails
    | none =>
      match temps with
      | [] => none                -- `and temps` is false, 'N/A' stands
      | (_, g) :: _ =>
        match g with
        | [] => none              -- `[0]` raises IndexError, caught → 'N/A'
        | fs :: _ => fs.current   -- `.current`; AttributeError when absent → 'N/A'

/-! ## Helper lemmas about the stable descending sort -/

theorem length_insertDesc {α β : Type} [LinearOrder β] (key : α → β) (x : α)
    (l : List α) : (insertDesc key x l).length = l.length + 1 := by
  induction l with
  | nil => rfl
  | cons y ys ih =>
    simp only [insertDesc]
    split
    · simp
    · simp [ih]

theorem perm_insertDesc {α β : Type} [LinearOrder β] (key : α → β) (x : α)
    (l : List α) : List.Perm (insertDesc key x l) (x :: l) := by
  induction l with
  | nil => exact List.Perm.refl _
  | cons y ys ih =>
    simp only [insertDesc]
    split
    · exact List.Perm.refl _
    · exact (ih.cons y).trans (List.Perm.swap x y ys)

theorem perm_sortDesc {α β : Type} [LinearOrder β] (key : α → β)
    (l : List α) : List.Perm (sortDesc key l) l := by
  induction l with
  | nil => exact List.Perm.refl _
  | cons x xs ih =>
    exact (perm_insertDesc key x (sortDesc key xs)).trans (ih.cons x)

theorem pairwise_insertDesc {α β : Type} [LinearOrder β] (key : α → β) (x : α)
    {l : List α} (h : l.Pairwise (fun a b => key b ≤ key a)) :
    (insertDesc key x l).Pairwise (fun a b => key b ≤ key a) := by
  induction l with
  | nil => simp [insertDesc]
  | cons y ys ih =>
    rw [List.pairwise_cons] at h
    obtain ⟨hy, hys⟩ := h
    simp only [insertDesc]
    split
    case isTrue hxy =>
      rw [List.pairwise_cons]
      refine ⟨?_, List.pairwise_cons.mpr ⟨hy, hys⟩⟩
      intro b hb
      rcases List.mem_cons.mp hb with rfl | hb
      · exact hxy
      · exact le_trans (hy b hb) hxy
    case isFalse hxy =>
      rw [List.pairwise_cons]
      refine ⟨?_, ih hys⟩
      intro b hb
      rcases List.mem_cons.mp ((perm_insertDesc key x ys).mem_iff.mp hb) with rfl | hb
      · exact le_of_lt (lt_of_not_le hxy)
      · exact hy b hb

theorem pairwise_sortDesc {α β : Type} [LinearOrder β] (key : α → β)
    (l : List α) : (sortDesc key l).Pairwise (fun a b => key b ≤ key a) := by
  induction l with
  | nil => simp [sortDesc]
  | cons x xs ih => exact pairwise_insertDesc key x ih

theorem filter_insertDesc {α β : Type} [LinearOrder β] (key : α → β) (x : α)
    (l : List α) (k : β) :
    (insertDesc key x l).filter (fun a => key a = k) =
      (if key x = k then [x] else []) ++ l.filter (fun a => key a = k) := by
  induction l with
  | nil =>
    simp only [insertDesc, List.filter]
    split <;> simp_all
  | cons y ys ih =>
    simp only [insertDesc]
    split
    case isTrue hxy =>
      by_cases hk : key x = k <;> simp [List.filter_cons, hk]
    case isFalse hxy =>
      by_cases hk : key x = k
      · have hyk : ¬ (key y = k) := by
          intro hyk
          exact hxy (le_of_eq (hyk.trans hk.symm))
        simp [List.filter_cons, hk, hyk, ih]
      · simp only [List.filter_cons, ih, hk]
        split <;> simp

theorem filter_sortDesc {α β : Type} [LinearOrder β] (key : α → β)
    (l : List α) (k : β) :
    (sortDesc key l).filter (fun a => key a = k) =
      l.filter (fun a => key a = k) := by
  induction l with
  | nil => rfl
  | cons x xs ih =>
    simp only [sortDesc, filter_insertDesc, ih, List.filter_cons]
    split <;> simp_all

/-! ## Helper lemmas about `format2` at integer values -/

theorem qfloor_intCast (n : ℤ) : qfloor (n : ℚ) = n := by
  simp [qfloor, Rat.intCast_num, Rat.intCast_den]

theorem roundHalfEven_intCast (n : ℤ) : roundHalfEven (n : ℚ) = n := by
  simp only [roundHalfEven, qfloor_intCast]
  norm_num

theorem format2_eq_of_mul_eq (q : ℚ) (n : ℤ) (h : q * 100 = (n : ℚ)) :
    format2 q = (if n < 0 then "-" else "") ++ toString (n.natAbs / 100) ++ "." ++
      twoDigits (n.natAbs % 100) := by
  simp only [format2, h, roundHalfEven_intCast]

/-! ## Concrete inputs used by the claim-level theorems -/

/-- Five process snapshots whose CPU percents are `[10, 55, 55, 2, 30]`,
with pids recording the enumeration order. -/
def exRankProcs : List ProcInfo :=
  [⟨0, "a", 10, 0, 0, 0, 0, 0, 0⟩, ⟨1, "b", 55, 0, 0, 0, 0, 0, 0⟩,
   ⟨2, "c", 55, 0, 0, 0, 0, 0, 0⟩, ⟨3, "d", 2, 0, 0, 0, 0, 0, 0⟩,
   ⟨4, "e", 30, 0, 0, 0, 0, 0, 0⟩]

/-- Sensor data in which `coretemp` is present but empty (malformed) while
another group carries a reading of 42. -/
def coreEmptyTemps : Temps :=
  [("acpitz", [⟨some 42⟩]), ("coretemp", [])]

/-- Sensor data without a `coretemp` group but with one available group. -/
def exFallbackTemps : Temps :=
  [("acpitz", [⟨some 42⟩])]

/-- A clock whose `n`-th reading is `100 + n`: it advances between calls,
so re-reading it is observable. -/
def exClock (n : ℕ) : ℚ := 100 + n

/-- Two successfully enumerated processes, both created at time 0. -/
def exProcsTwo : List (Except PErr RawInfo) :=
  [.ok ⟨1, "a", 0, 0, 0, none, 0⟩, .ok ⟨2, "b", 0, 0, 0, none, 0⟩]

/-- Follows claim C6's words, for comparison with `get_all_processes_info`:
the wall-clock is re-read independently for each enumerated process, so the
`j`-th enumerated process uses reading `clock j`. -/
def perProcessClockAux (clock : ℕ → ℚ) : ℕ → List (Except PErr RawInfo) → List ProcInfo
  | _, [] => []
  | j, .ok r :: rest => mkProcInfo (clock j) r :: perProcessClockAux clock (j + 1) rest
  | j, .error _ :: rest => perProcessClockAux clock (j + 1) rest

/-- The claim-side enumeration with per-process clock reads. -/
def perProcessClockInfo (clock : ℕ → ℚ)
    (procs : List (Except PErr RawInfo)) : List ProcInfo :=
  perProcessClockAux clock 0 procs

/-! ## Claim-level theorems -/

/-- C1 (log schema stability): the header row created by `setup_csv` is
`headerCols` — the 14 system columns followed, for each category
`cpu, memory, disk_io` and each rank `1..N`, by the eight
`top_<category>_<rank>_<field>` columns — and for every cycle's sample and
top lists, the key sequence of the `log_data` dict (which `DictWriter`
with `fieldnames=data.keys()` writes as the appended row's column order)
is that same sequence. -/
theorem header_matches_appended_row_keys :
    setup_csv none = some [headerCols]
    ∧ ∀ (s : Sample) (tc tm td : List ProcInfo),
        (mkLogRow s tc tm td).map Prod.fst = headerCols :=
  ⟨rfl, fun _ _ _ _ => rfl⟩

/-- C2, counterexample: with no live processes, all `TOP_N_PROCESSES = 5`
rank slots of the CPU category are unfilled; the appended log row renders
each of them as the sentinel in all eight fields, but the console display
section prints no line at all for them — the displayed task list is empty,
so no unfilled slot is "rendered as the sentinel" in the display, contrary
to the claim. -/
theorem display_omits_unfilled_slots :
    displayCpuLines [] = []
    ∧ displayMemLines [] = []
    ∧ displayDiskLines [] = []
    ∧ TOP_N_PROCESSES = 5
    ∧ (slotPairs "cpu" 1 (([] : List ProcInfo))[0]?).map Prod.snd =
        List.replicate 8 CellVal.na := by
  refine ⟨rfl, rfl, rfl, rfl, rfl⟩

/-- C2 as amended: each category contributes at most `n` populated rank
slots; in the appended log row every unfilled slot (index at or beyond the
top list's length) is the sentinel `'N/A'` in all eight of its fields; the
console display renders exactly one line per populated slot and omits
unfilled slots entirely (it does not render the sentinel for them). -/
theorem sentinel_padding_in_log_row :
    (∀ (c : String) (r i : ℕ) (top : List ProcInfo), top.length ≤ i →
        (slotPairs c r top[i]?).map Prod.snd = List.replicate 8 CellVal.na)
    ∧ (∀ (β : Type) [LinearOrder β] (key : ProcInfo → β) (n : ℕ)
        (procs : List ProcInfo), (rankTop key n procs).length ≤ n)
    ∧ (∀ top : List ProcInfo,
        (displayCpuLines top).length = top.length
        ∧ (displayMemLines top).length = top.length
        ∧ (displayDiskLines top).length = top.length) := by
  refine ⟨?_, ?_, ?_⟩
  · intro c r i top h
    rw [List.getElem?_eq_none h]
    rfl
  · intro β _ key n procs
    exact List.length_take_le n _
  · intro top
    refine ⟨?_, ?_, ?_⟩ <;> simp [displayCpuLines, displayMemLines, displayDiskLines]

/-- Witness for C2's amended theorem at a concrete unfilled slot. -/
theorem sentinel_padding_in_log_row_witness :
    ([] : List ProcInfo).length ≤ 0
    ∧ (slotPairs "cpu" 1 (([] : List ProcInfo))[0]?).map Prod.snd =
        List.replicate 8 CellVal.na :=
  ⟨by decide, sentinel_padding_in_log_row.1 "cpu" 1 0 [] (by decide)⟩

/-- C3 (I/O rate computation): for every pair of counter snapshots, the
derived disk rates are the raw byte deltas and the derived network rates
are the byte deltas times 8 divided by 1,000,000; at the claimed concrete
snapshots the results are 80, 45, 1.0 Mbps and 2.0 Mbps. -/
theorem io_rates_are_deltas :
    (∀ ld nd ln nn, get_io_rates ld nd ln nn =
        ((nd.read_bytes : ℤ) - (ld.read_bytes : ℤ),
         (nd.write_bytes : ℤ) - (ld.write_bytes : ℤ),
         ((nn.bytes_sent : ℚ) - (ln.bytes_sent : ℚ)) * 8 / 1000000,
         ((nn.bytes_recv : ℚ) - (ln.bytes_recv : ℚ)) * 8 / 1000000))
    ∧ get_io_rates ⟨100, 50⟩ ⟨180, 95⟩ ⟨0, 0⟩ ⟨125000, 250000⟩ = (80, 45, 1, 2) := by
  refine ⟨fun _ _ _ _ => rfl, ?_⟩
  simp only [get_io_rates, Prod.mk.injEq]
  norm_num

/-- C4 (ranking): every selection `sorted(procs, key, reverse=True)[:n]`
is sorted in descending key order; its length is `min n (length procs)`
(hence at most `n`); the sort is a permutation of the input (the input
itself, being a value, is untouched — `sortDesc` is pure); equal keys keep
their original enumeration order (for every key value, the equal-key
elements of the sorted list are exactly those of the input in the same
order); and on CPU percents `[10, 55, 55, 2, 30]` with `n = 3` the
selection is the first-seen 55 (pid 1), the second-seen 55 (pid 2), then
30 (pid 4). -/
theorem ranking_descending_stable_topN :
    (∀ (β : Type) [LinearOrder β] (key : ProcInfo → β) (n : ℕ)
        (procs : List ProcInfo),
        (rankTop key n procs).Pairwise (fun a b => key b ≤ key a)
        ∧ (rankTop key n procs).length = min n procs.length
        ∧ List.Perm (sortDesc key procs) procs
        ∧ ∀ k, (sortDesc key procs).filter (fun a => key a = k) =
            procs.filter (fun a => key a = k))
    ∧ (rankTop ProcInfo.cpu_percent 3 exRankProcs).map
        (fun p => (p.pid, p.cpu_percent)) = [(1, 55), (2, 55), (4, 30)] := by
  constructor
  · intro β _ key n procs
    refine ⟨?_, ?_, perm_sortDesc key procs, filter_sortDesc key procs⟩
    · exact (pairwise_sortDesc key procs).sublist (List.take_sublist n _)
    · rw [rankTop, List.length_take, (perm_sortDesc key procs).length_eq]
  · decide

/-- C5, counterexample: when `coretemp` is present but its entry list is
empty (malformed) while another group (`acpitz`, first in dict order)
exists whose first entry reads 42, the claim's fallback would report 42;
the code instead hits `IndexError` on `temps.get('coretemp', [{}])[0]`,
which the `except` turns into the sentinel — the fallback is never
consulted. -/
theorem coretemp_empty_skips_fallback :
    lookupTemp coreEmptyTemps = none
    ∧ List.lookup "coretemp" coreEmptyTemps = some []
    ∧ coreEmptyTemps ≠ []
    ∧ (coreEmptyTemps.head?.bind fun g => g.2.head?.bind SensorEntry.current) =
        some 42 := by
  refine ⟨rfl, rfl, by decide, rfl⟩

/-- C5 as amended: if no sensor data exists, the temperature is the
sentinel; if `coretemp` is present with a non-empty entry list and its
first entry has a `current` reading, that reading is used; if `coretemp`
is present but empty, the result is the sentinel even when other groups
exist (the `IndexError` is caught and the fallback is not consulted); if
`coretemp` is absent, or present with its first entry lacking a `current`
reading, the first entry of the first group in dict order supplies the
reading (sentinel when that group is empty or its first entry has no
reading); no lookup failure escapes the block. -/
theorem temperature_lookup_cases (temps : Temps) :
    (temps = [] → lookupTemp temps = none)
    ∧ (∀ e rest v, List.lookup "coretemp" temps = some (e :: rest) →
        e.current = some v → lookupTemp temps = some v)
    ∧ (List.lookup "coretemp" temps = some [] → lookupTemp temps = none)
    ∧ (List.lookup "coretemp" temps = none → ∀ nm g rest,
        temps = (nm, g) :: rest →
        lookupTemp temps = g.head?.bind SensorEntry.current)
    ∧ (∀ e rest nm g grest, List.lookup "coretemp" temps = some (e :: rest) →
        e.current = none → temps = (nm, g) :: grest →
        lookupTemp temps = g.head?.bind SensorEntry.current) := by
  refine ⟨?_, ?_, ?_, ?_, ?_⟩
  · rintro rfl
    rfl
  · intro e rest v hl hc
    simp [lookupTemp, hl, hc]
  · intro hl
    simp [lookupTemp, hl]
  · intro hl nm g rest ht
    subst ht
    cases g with
    | nil => simp [lookupTemp, hl]
    | cons fs gs => simp [lookupTemp, hl]
  · intro e rest nm g grest hl hc ht
    subst ht
    cases g with
    | nil => simp [lookupTemp, hl, hc]
    | cons fs gs => simp [lookupTemp, hl, hc]

/-- Witness for C5's amended theorem: with `coretemp` absent and one
available group whose first entry reads 42, the fallback reading 42 is
used. -/
theorem temperature_lookup_cases_witness :
    List.lookup "coretemp" exFallbackTemps = none
    ∧ lookupTemp exFallbackTemps =
        ([⟨some 42⟩] : List SensorEntry).head?.bind SensorEntry.current :=
  ⟨by decide, (temperature_lookup_cases exFallbackTemps).2.2.2.1 (by decide)
    "acpitz" [⟨some 42⟩] [] rfl⟩

/-- C6, counterexample: with a clock that advances by 1 between successive
readings and two enumerated processes created at time 0, the code gives
both processes execution time 100 — `time.time()` is called once, before
the loop (Main.py line 73) — whereas re-reading the clock independently
per process, as the claim states, would give 100 and 101. -/
theorem execution_time_not_per_process :
    (get_all_processes_info exClock exProcsTwo).map ProcInfo.execution_time_s =
        [100, 100]
    ∧ (perProcessClockInfo exClock exProcsTwo).map ProcInfo.execution_time_s =
        [100, 101]
    ∧ ([100, 100] : List ℚ) ≠ [100, 101] := by
  refine ⟨?_, ?_, by norm_num⟩
  · simp [get_all_processes_info, collectProcs, mkProcInfo, exClock, exProcsTwo]
  · simp [perProcessClockInfo, perProcessClockAux, mkProcInfo, exClock, exProcsTwo]
    norm_num

/-- C6 as amended: for every clock oracle and enumeration result, each
enumerated process's `execution_time_s` is the single wall-clock reading
taken once before the loop (`clock 0`) minus that process's creation
time — all processes of a cycle share the same reading. -/
theorem execution_time_shared_cycle_clock (clock : ℕ → ℚ)
    (procs : List (Except PErr RawInfo)) :
    (get_all_processes_info clock procs).map ProcInfo.execution_time_s =
      (procs.filterMap Except.toOption).map
        (fun r => clock 0 - r.create_time) := by
  simp only [get_all_processes_info]
  induction procs with
  | nil => rfl
  | cons p rest ih =>
    cases p with
    | ok r =>
      simp only [collectProcs, List.map_cons, List.filterMap_cons, Except.toOption, ih]
      rfl
    | error e =>
      simpa only [collectProcs, List.filterMap_cons, Except.toOption] using ih

/-- C7 (schema-ensure idempotence): `setup_csv` on an existing file leaves
its rows exactly as they were, on a missing file creates exactly one
header row, and is idempotent. -/
theorem setup_csv_idempotent :
    (∀ rows, setup_csv (some rows) = some rows)
    ∧ setup_csv none = some [headerCols]
    ∧ ∀ fs, setup_csv (setup_csv fs) = setup_csv fs := by
  refine ⟨fun _ => rfl, rfl, ?_⟩
  intro fs
  cases fs <;> rfl

/-- C8 (human-size formatting): every byte count is rendered as the value
divided by `1024^k` for some `k ≤ 6`, formatted with two decimal places
and followed by the `k`-th unit of `B, K, M, G, T, P` (with `k = 6`
reusing `P`) and the suffix `B`; in particular `get_size 1536 = "1.50KB"`
and `get_size 0 = "0.00B"`. -/
theorem get_size_binary_scaled :
    (∀ b : ℚ, ∃ k, k ≤ 6 ∧ get_size b = format2 (b / 1024 ^ k) ++ unitStr k ++ "B")
    ∧ get_size 1536 = "1.50KB" ∧ get_size 0 = "0.00B" := by
  refine ⟨?_, ?_, ?_⟩
  · intro b
    by_cases h0 : b < 1024
    · refine ⟨0, by norm_num, ?_⟩
      simp only [get_size, getSizeAux, if_pos h0]
      rw [pow_zero, div_one]
      rfl
    by_cases h1 : b / 1024 < 1024
    · refine ⟨1, by norm_num, ?_⟩
      simp only [get_size, getSizeAux, if_neg h0, if_pos h1]
      rw [pow_one]
      rfl
    by_cases h2 : b / 1024 / 1024 < 1024
    · refine ⟨2, by norm_num, ?_⟩
      simp only [get_size, getSizeAux, if_neg h0, if_neg h1, if_pos h2]
      rw [show b / 1024 / 1024 = b / 1024 ^ 2 by rw [div_div]; norm_num]
      rfl
    by_cases h3 : b / 1024 / 1024 / 1024 < 1024
    · refine ⟨3, by norm_num, ?_⟩
      simp only [get_size, getSizeAux, if_neg h0, if_neg h1, if_neg h2, if_pos h3]
      rw [show b / 1024 / 1024 / 1024 = b / 1024 ^ 3 by
        rw [div_div, div_div]; norm_num]
      rfl
    by_cases h4 : b / 1024 / 1024 / 1024 / 1024 < 1024
    · refine ⟨4, by norm_num, ?_⟩
      simp only [get_size, getSizeAux, if_neg h0, if_neg h1, if_neg h2, if_neg h3,
        if_pos h4]
      rw [show b / 1024 / 1024 / 1024 / 1024 = b / 1024 ^ 4 by
        rw [div_div, div_div, div_div]; norm_num]
      rfl
    by_cases h5 : b / 1024 / 1024 / 1024 / 1024 / 1024 < 1024
    · refine ⟨5, by norm_num, ?_⟩
      simp only [get_size, getSizeAux, if_neg h0, if_neg h1, if_neg h2, if_neg h3,
        if_neg h4, if_pos h5]
      rw [show b / 1024 / 1024 / 1024 / 1024 / 1024 = b / 1024 ^ 5 by
        rw [div_div, div_div, div_div, div_div]; norm_num]
      rfl
    · refine ⟨6, by norm_num, ?_⟩
      simp only [get_size, getSizeAux, if_neg h0, if_neg h1, if_neg h2, if_neg h3,
        if_neg h4, if_neg h5]
      rw [show b / 1024 / 1024 / 1024 / 1024 / 1024 / 1024 = b / 1024 ^ 6 by
        rw [div_div, div_div, div_div, div_div, div_div]; norm_num]
      rfl
  · have h0 : ¬ ((1536 : ℚ) < 1024) := by norm_num
    have h1 : (1536 : ℚ) / 1024 < 1024 := by norm_num
    simp only [get_size, getSizeAux, if_neg h0, if_pos h1]
    rw [format2_eq_of_mul_eq _ 150 (by norm_num)]
    decide
  · have h0 : (0 : ℚ) < 1024 := by norm_num
    simp only [get_size, getSizeAux, if_pos h0]
    rw [format2_eq_of_mul_eq _ 0 (by norm_num)]
    decide

/-- C9 (transient per-process read failure): an enumerated process whose
read raises any of the three caught exceptions contributes nothing — the
cycle's result is exactly the one obtained with that process absent — and
in general the result is precisely the records of the successful reads,
in order; the enumeration is a total function, so no failure propagates. -/
theorem transient_failures_omitted :
    (∀ (clock : ℕ → ℚ) (xs ys : List (Except PErr RawInfo)) (e : PErr),
        get_all_processes_info clock (xs ++ .error e :: ys) =
          get_all_processes_info clock (xs ++ ys))
    ∧ ∀ (clock : ℕ → ℚ) (procs : List (Except PErr RawInfo)),
        get_all_processes_info clock procs =
          (procs.filterMap Except.toOption).map (mkProcInfo (clock 0)) := by
  constructor
  · intro clock xs ys e
    simp only [get_all_processes_info]
    induction xs with
    | nil => rfl
    | cons p rest ih =>
      cases p with
      | ok r =>
        simp only [List.cons_append, collectProcs]
        exact congrArg (List.cons (mkProcInfo (clock 0) r)) ih
      | error e2 =>
        simp only [List.cons_append, collectProcs]
        exact ih
  · intro clock procs
    simp only [get_all_processes_info]
    induction procs with
    | nil => rfl
    | cons p rest ih =>
      cases p with
      | ok r =>
        simp only [collectProcs, List.filterMap_cons, Except.toOption, List.map_cons, ih]
      | error e =>
        simpa only [collectProcs, List.filterMap_cons, Except.toOption] using ih

/-- C10 (implicit, `get_size` overflow): for every byte count at least
`1024^6`, the loop exhausts its six units, so the result is the input
divided by `1024^6`, two-decimal formatted, with unit `P` (the scale never
goes beyond `P`), and the rendered mantissa is at least 1; the function is
total (it is a Lean function on all of `ℚ`). -/
theorem get_size_overflow_P (b : ℚ) (h : (1024 : ℚ) ^ 6 ≤ b) :
    get_size b = format2 (b / 1024 ^ 6) ++ "PB" ∧ 1 ≤ b / 1024 ^ 6 := by
  have e2 : b / 1024 / 1024 = b / 1024 ^ 2 := by rw [div_div]; norm_num
  have e3 : b / 1024 / 1024 / 1024 = b / 1024 ^ 3 := by
    rw [div_div, div_div]; norm_num
  have e4 : b / 1024 / 1024 / 1024 / 1024 = b / 1024 ^ 4 := by
    rw [div_div, div_div, div_div]; norm_num
  have e5 : b / 1024 / 1024 / 1024 / 1024 / 1024 = b / 1024 ^ 5 := by
    rw [div_div, div_div, div_div, div_div]; norm_num
  have e6 : b / 1024 / 1024 / 1024 / 1024 / 1024 / 1024 = b / 1024 ^ 6 := by
    rw [div_div, div_div, div_div, div_div, div_div]; norm_num
  have h0 : ¬ (b < 1024) := by
    push_neg
    calc (1024 : ℚ) ≤ 1024 ^ 6 := by norm_num
      _ ≤ b := h
  have h1 : ¬ (b / 1024 < 1024) := by
    push_neg
    rw [le_div_iff₀ (by norm_num : (0 : ℚ) < 1024)]
    calc (1024 : ℚ) * 1024 ≤ 1024 ^ 6 := by norm_num
      _ ≤ b := h
  have h2 : ¬ (b / 1024 / 1024 < 1024) := by
    push_neg
    rw [e2, le_div_iff₀ (by norm_num : (0 : ℚ) < 1024 ^ 2)]
    calc (1024 : ℚ) * 1024 ^ 2 ≤ 1024 ^ 6 := by norm_num
      _ ≤ b := h
  have h3 : ¬ (b / 1024 / 1024 / 1024 < 1024) := by
    push_neg
    rw [e3, le_div_iff₀ (by norm_num : (0 : ℚ) < 1024 ^ 3)]
    calc (1024 : ℚ) * 1024 ^ 3 ≤ 1024 ^ 6 := by norm_num
      _ ≤ b := h
  have h4 : ¬ (b / 1024 / 1024 / 1024 / 1024 < 1024) := by
    push_neg
    rw [e4, le_div_iff₀ (by norm_num : (0 : ℚ) < 1024 ^ 4)]
    calc (1024 : ℚ) * 1024 ^ 4 ≤ 1024 ^ 6 := by norm_num
      _ ≤ b := h
  have h5 : ¬ (b / 1024 / 1024 / 1024 / 1024 / 1024 < 1024) := by
    push_neg
    rw [e5, le_div_iff₀ (by norm_num : (0 : ℚ) < 1024 ^ 5)]
    calc (1024 : ℚ) * 1024 ^ 5 ≤ 1024 ^ 6 := by norm_num
      _ ≤ b := h
  constructor
  · simp only [get_size, getSizeAux, if_neg h0, if_neg h1, if_neg h2, if_neg h3,
      if_neg h4, if_neg h5]
    rw [e6, String.append_assoc]
    rfl
  · rw [one_le_div (by norm_num : (0 : ℚ) < 1024 ^ 6)]
    exact h

/-- Witness for C10 at the smallest overflowing input `1024^6`. -/
theorem get_size_overflow_P_witness :
    (1024 : ℚ) ^ 6 ≤ 1024 ^ 6
    ∧ (get_size (1024 ^ 6) = format2 ((1024 : ℚ) ^ 6 / 1024 ^ 6) ++ "PB"
        ∧ 1 ≤ (1024 : ℚ) ^ 6 / 1024 ^ 6) :=
  ⟨le_refl _, get_size_overflow_P (1024 ^ 6) (le_refl _)⟩

end SPM

